import Mathlib

/-!
Shallow embedding of `src/vnstock_agent/agent/yahoo_finance_agent.py`:
the `YahooFinanceAgent` accessor methods, in particular `get_options_chain`
and `get_filtered_options`.  Upstream yfinance calls are modelled as an
explicit provider record; a raised exception is an `Except.error` carrying
`str(e)`; `logger` emissions are modelled as returned lists of strings.
-/

namespace VnStock

/-- A calendar date as produced by `datetime.strptime(s, "%Y-%m-%d").date()`. -/
structure Date where
  year : Nat
  month : Nat
  day : Nat
deriving DecidableEq, Repr

/-- Gregorian leap-year rule used by `datetime.date`. -/
def isLeap (y : Nat) : Bool :=
  (y % 4 == 0 && y % 100 != 0) || (y % 400 == 0)

/-- Days in a month, as validated by the `datetime.date` constructor. -/
def daysInMonth (y m : Nat) : Nat :=
  if m == 2 then (if isLeap y then 29 else 28)
  else if m == 4 || m == 6 || m == 9 || m == 11 then 30
  else 31

/-- Split a character list at every `'-'` (the separators of `%Y-%m-%d`). -/
def splitOnDash : List Char → List (List Char)
  | [] => [[]]
  | c :: rest =>
    match splitOnDash rest with
    | [] => [[c]]
    | seg :: segs => if c = '-' then [] :: seg :: segs else (c :: seg) :: segs

/-- Numeric value of a digit string. -/
def digitsVal (cs : List Char) : Nat :=
  cs.foldl (fun n c => 10 * n + (c.toNat - 48)) 0

/-- All characters are ASCII digits. -/
def allDigits (cs : List Char) : Bool := cs.all Char.isDigit

/-- Models `datetime.strptime(s, "%Y-%m-%d").date()`.  CPython's `_strptime`
matches `%Y` as exactly four digits and `%m`, `%d` as one or two digits with
value ranges 1–12 and 1–31, requires the whole string to be consumed, and the
`datetime` constructor then validates year ≥ 1 and the day against the month
length.  Returns `none` exactly when `strptime` raises `ValueError`. -/
def parseDate (s : String) : Option Date :=
  match splitOnDash s.toList with
  | [ys, ms, ds] =>
    if ys.length == 4 && allDigits ys &&
        (ms.length == 1 || ms.length == 2) && allDigits ms &&
        (ds.length == 1 || ds.length == 2) && allDigits ds then
      let y := digitsVal ys
      let m := digitsVal ms
      let d := digitsVal ds
      if 1 ≤ y && 1 ≤ m && m ≤ 12 && 1 ≤ d && d ≤ daysInMonth y m then
        some ⟨y, m, d⟩
      else none
    else none
  | _ => none

/-- The total order on `datetime.date`: lexicographic on (year, month, day). -/
def dateLe (a b : Date) : Bool :=
  a.year < b.year ||
    (a.year == b.year &&
      (a.month < b.month || (a.month == b.month && a.day ≤ b.day)))

/-- Python truthiness of an `Optional[str]` argument (`if s:`):
present and non-empty. -/
def truthyStr : Option String → Bool
  | none => false
  | some s => !s.isEmpty

/-- One row of option-chain data, restricted to the fields the code reads. -/
structure OptionRow where
  strike : Rat
  openInterest : Int
  volume : Int
deriving DecidableEq, Repr

/-- The upstream `ticker.option_chain(expiry)` result: `.calls` and `.puts`,
each a sequence of rows in the provider's original order. -/
structure OptionChainData where
  calls : List OptionRow
  puts : List OptionRow
deriving DecidableEq, Repr

/-- The `option_type` argument: `"C"` for calls, `"P"` for puts. -/
inductive OptType
  | C
  | P
deriving DecidableEq, Repr

/-- Upstream yfinance behaviour for one ticker: the `t.options` expiry list and
the per-expiry `t.option_chain(expiry)` call, which either returns a chain or
raises an exception whose `str` is the carried message. -/
structure Provider where
  expirations : List String
  chainOf : String → Except String OptionChainData

/-- `YahooFinanceAgent.get_options_chain`: returns `(chain DataFrame, error)`.
`if not expiry` is Python truthiness, so an absent or empty expiry is the
input-validation error; an upstream exception becomes `(none, str(e))`. -/
def get_options_chain (ticker : String) (p : Provider) (expiry : Option String)
    (option_type : Option OptType) : Option (List OptionRow) × Option String :=
  if !truthyStr expiry then (none, some "No expiry date provided")
  else
    match p.chainOf (expiry.getD "") with
    | .error e => (none, some e)
    | .ok chain =>
      match option_type with
      | some .C => (some chain.calls, none)
      | some .P => (some chain.puts, none)
      | none => (some (chain.calls ++ chain.puts), none)

/-- A chain row tagged with its originating expiry
(`chain.assign(expiryDate=expiry)`). -/
structure TaggedRow where
  row : OptionRow
  expiryDate : String
deriving DecidableEq, Repr

/-- The key order of `sort_values(['openInterest', 'volume'],
ascending=[False, False])`: descending open interest, ties broken by
descending volume. -/
def rowLe (a b : TaggedRow) : Bool :=
  b.row.openInterest < a.row.openInterest ||
    (a.row.openInterest == b.row.openInterest && b.row.volume ≤ a.row.volume)

/-- `rowLe` as a relation, for the sortedness lemmas. -/
def rowOrder (a b : TaggedRow) : Prop := rowLe a b = true

instance : DecidableRel rowOrder := fun a b => by
  unfold rowOrder
  infer_instance

instance : IsTotal TaggedRow rowOrder := by
  constructor
  intro a b
  simp only [rowOrder, rowLe, Bool.or_eq_true, Bool.and_eq_true, decide_eq_true_eq,
    beq_iff_eq] at *
  omega

instance : IsTrans TaggedRow rowOrder := by
  constructor
  intro a b c hab hbc
  simp only [rowOrder, rowLe, Bool.or_eq_true, Bool.and_eq_true, decide_eq_true_eq,
    beq_iff_eq] at *
  omega

/-- The final sort of `get_filtered_options`
(`df.sort_values(['openInterest', 'volume'], ascending=[False, False])`):
some permutation of the rows ordered by the `rowLe` key. -/
def sortRows (rows : List TaggedRow) : List TaggedRow :=
  rows.insertionSort rowOrder

/-- The strike mask applied to one row: conjunction of the supplied bounds,
each inclusive. -/
def strikePass (strike_lower strike_upper : Option Rat) (r : TaggedRow) : Bool :=
  (match strike_lower with
   | none => true
   | some lo => lo ≤ r.row.strike) &&
  (match strike_upper with
   | none => true
   | some hi => r.row.strike ≤ hi)

/-- Strike filtering step of `get_filtered_options`: the mask is built and
applied only when at least one bound is supplied. -/
def strikeFilter (strike_lower strike_upper : Option Rat)
    (rows : List TaggedRow) : List TaggedRow :=
  if strike_lower.isNone && strike_upper.isNone then rows
  else rows.filter (strikePass strike_lower strike_upper)

/-- The result-processing loop of `get_filtered_options`: walks the zipped
`(per-expiry result, expiry)` list; a truthy error logs a warning and skips,
a present chain is tagged with its expiry and kept, a `None` chain with a
falsy error is skipped silently.  Returns (kept tagged chains, warnings). -/
def processResults :
    List ((Option (List OptionRow) × Option String) × String) →
      List (List TaggedRow) × List String
  | [] => ([], [])
  | (res, expiry) :: rest =>
    let acc := processResults rest
    if truthyStr res.2 then
      (acc.1, ("Error fetching options for expiry " ++ expiry ++ ": " ++ res.2.getD "")
        :: acc.2)
    else
      match res.1 with
      | some rows => ((rows.map (fun r => ⟨r, expiry⟩)) :: acc.1, acc.2)
      | none => acc

/-- Expiry filtering loop of `get_filtered_options`: parses each expiry with
`strptime` (a malformed expiry raises, caught by the outer handler) and keeps
those inside the supplied bounds, preserving order.  A `datetime.date` object
is always truthy, so `not start_date_obj` is exactly `start_date_obj is None`. -/
def filterExpirations (exps : List String) (s e : Option Date) :
    Except String (List String) :=
  match exps with
  | [] => .ok []
  | exp :: rest =>
    match parseDate exp with
    | none => .error ("time data '" ++ exp ++ "' does not match format '%Y-%m-%d'")
    | some d =>
      (filterExpirations rest s e).map (fun ks =>
        if ((match s with | none => true | some sd => dateLe sd d) &&
            (match e with | none => true | some ed => dateLe d ed)) then
          exp :: ks
        else ks)

/-- `start_date_obj` / `end_date_obj`: the parsed bound when the argument is
truthy, `None` otherwise. -/
def boundObj (o : Option String) : Option Date :=
  if truthyStr o then parseDate (o.getD "") else none

/-- Outcome of `get_filtered_options`, with the returned pair instrumented by
the logged warnings and the observable upstream side effects (whether
`t.options` was read, and which expiries were fetched by the executor). -/
structure FilteredResult where
  result : Option (List TaggedRow)
  error : Option String
  warnings : List String
  expiryListFetched : Bool
  chainsFetched : List String
deriving DecidableEq, Repr

/-- `YahooFinanceAgent.get_filtered_options`, step for step: date validation
(Python truthiness on the arguments), expiry discovery, expiry filtering
(where a malformed provider expiry raises into the outer `except`), a
parallel `executor.map` fetch that preserves the order of
`valid_expirations`, the warn-and-skip result loop, concatenation, strike
filtering and the final sort. -/
def get_filtered_options (p : Provider) (ticker : String)
    (start_date end_date : Option String)
    (strike_lower strike_upper : Option Rat)
    (option_type : Option OptType) : FilteredResult :=
  if truthyStr start_date && (parseDate (start_date.getD "")).isNone then
    ⟨none, some "Invalid start_date format. Use YYYY-MM-DD", [], false, []⟩
  else if truthyStr end_date && (parseDate (end_date.getD "")).isNone then
    ⟨none, some "Invalid end_date format. Use YYYY-MM-DD", [], false, []⟩
  else if p.expirations.isEmpty then
    ⟨none, some ("No options available for " ++ ticker), [], true, []⟩
  else
    match filterExpirations p.expirations (boundObj start_date) (boundObj end_date) with
    | .error e =>
      ⟨none, some ("Failed to retrieve options data: " ++ e), [], true, []⟩
    | .ok valid_expirations =>
      if valid_expirations.isEmpty then
        ⟨none, some ("No options found for " ++ ticker ++ " within specified date range"),
          [], true, []⟩
      else
        let options_results := valid_expirations.map
          (fun exp => get_options_chain ticker p (some exp) option_type)
        let processed := processResults (options_results.zip valid_expirations)
        if processed.1.isEmpty then
          ⟨none, some ("No options found for " ++ ticker ++ " matching criteria"),
            processed.2, true, valid_expirations⟩
        else
          ⟨some (sortRows (strikeFilter strike_lower strike_upper processed.1.flatten)),
            none, processed.2, true, valid_expirations⟩

/-- `bool` form of "the bound argument passes Step 1 validation": either not
truthy (absent or empty) or parseable. -/
def boundOK (o : Option String) : Bool :=
  !truthyStr o || (parseDate (o.getD "")).isSome

/-- Spec-side form of the Step 3 retention predicate, for comparison with the
code's `filterExpirations`: the expiry parses and lies inside the supplied
bounds. -/
def expInRange (s e : Option Date) (exp : String) : Bool :=
  match parseDate exp with
  | none => false
  | some d =>
    (match s with | none => true | some sd => dateLe sd d) &&
    (match e with | none => true | some ed => dateLe d ed)

/-- `YahooFinanceAgent.get_ticker_info`: pass the upstream value through, or
catch the exception, log, and return the sentinel. -/
def get_ticker_info {α : Type} (fetch : Except String (Option α)) (ticker : String) :
    Option α × List String :=
  match fetch with
  | .ok v => (v, [])
  | .error e => (none, ["Error retrieving ticker info for " ++ ticker ++ ": " ++ e])

/-- `YahooFinanceAgent.get_recommendations`: `df.head(limit)` when a frame came
back, bare `None` (no log) when upstream returned `None`, catch-log-sentinel
when upstream raised. -/
def get_recommendations {α : Type} (fetch : Except String (Option (List α)))
    (ticker : String) (limit : Nat) : Option (List α) × List String :=
  match fetch with
  | .ok (some df) => (some (df.take limit), [])
  | .ok none => (none, [])
  | .error e => (none, ["Error retrieving recommendations for " ++ ticker ++ ": " ++ e])

/-- `YahooFinanceAgent.get_price_history`: the upstream frame is returned as is;
a raised exception is caught, logged and turned into the sentinel. -/
def get_price_history {α : Type} (fetch : Except String α) (ticker : String) :
    Option α × List String :=
  match fetch with
  | .ok v => (some v, [])
  | .error e => (none, ["Error retrieving price history for " ++ ticker ++ ": " ++ e])

/-- Upstream behaviour of the two holder fetches used by
`get_institutional_holders`, in the order the code performs them. -/
structure HoldersFetch (α : Type) where
  inst : Except String (Option (List α))
  fund : Except String (Option (List α))

/-- `YahooFinanceAgent.get_institutional_holders`: both upstream calls sit in
one `try`, institutional first; an exception in either call lands in the one
`except`, which returns `(None, None)`. -/
def get_institutional_holders {α : Type} (f : HoldersFetch α) (ticker : String)
    (top_n : Nat) : (Option (List α) × Option (List α)) × List String :=
  match f.inst with
  | .error e =>
    ((none, none), ["Error retrieving institutional holders for " ++ ticker ++ ": " ++ e])
  | .ok inst =>
    match f.fund with
    | .error e =>
      ((none, none), ["Error retrieving institutional holders for " ++ ticker ++ ": " ++ e])
    | .ok fund =>
      ((inst.map (fun l => l.take top_n), fund.map (fun l => l.take top_n)), [])

/-! ### Helper lemmas -/

/-- A present chain implies an absent error in `get_options_chain`. -/
lemma get_options_chain_isSome_error_none (ticker : String) (p : Provider)
    (expiry : Option String) (ot : Option OptType)
    (h : (get_options_chain ticker p expiry ot).1.isSome = true) :
    (get_options_chain ticker p expiry ot).2 = none := by
  by_cases ht : (!truthyStr expiry) = true
  · simp [get_options_chain, ht] at h
  · rcases hc : p.chainOf (expiry.getD "") with e | chain
    · simp [get_options_chain, ht, hc] at h
    · rcases ot with _ | t
      · simp [get_options_chain, ht, hc]
      · cases t <;> simp [get_options_chain, ht, hc]

/-- A truthy error implies an absent chain in `get_options_chain`. -/
lemma get_options_chain_truthy_error_none (ticker : String) (p : Provider)
    (expiry : Option String) (ot : Option OptType)
    (h : truthyStr (get_options_chain ticker p expiry ot).2 = true) :
    (get_options_chain ticker p expiry ot).1 = none := by
  rcases hc : (get_options_chain ticker p expiry ot).1 with _ | v
  · rfl
  · have := get_options_chain_isSome_error_none ticker p expiry ot (by rw [hc]; rfl)
    rw [this] at h
    simp [truthyStr] at h

/-- Validation passes on a bound satisfying `boundOK`. -/
lemma boundOK_validation (o : Option String) (h : boundOK o = true) :
    (truthyStr o && (parseDate (o.getD "")).isNone) = false := by
  unfold boundOK at h
  rcases ht : truthyStr o with _ | _ <;> simp [ht] at h ⊢
  cases hp : parseDate (o.getD "") <;> simp [hp] at h ⊢

/-- With every expiry parseable, `filterExpirations` succeeds and keeps
exactly the in-range expiries, in order. -/
lemma filterExpirations_ok (exps : List String) (s e : Option Date)
    (hp : ∀ x ∈ exps, (parseDate x).isSome = true) :
    filterExpirations exps s e = .ok (exps.filter (expInRange s e)) := by
  induction exps with
  | nil => rfl
  | cons a rest ih =>
    have ha := hp a (by simp)
    rcases hd : parseDate a with _ | d
    · rw [hd] at ha
      simp at ha
    · have ih' := ih (fun x hx => hp x (by simp [hx]))
      by_cases hc : ((match s with | none => true | some sd => dateLe sd d) &&
          (match e with | none => true | some ed => dateLe d ed)) = true <;>
        simp [filterExpirations, hd, ih', List.filter_cons, expInRange, hc, Except.map]

/-- The kept chains of the processing loop, as a `filterMap`. -/
lemma processResults_fst (rs : List ((Option (List OptionRow) × Option String) × String)) :
    (processResults rs).1 = rs.filterMap (fun q =>
      if truthyStr q.1.2 then none
      else q.1.1.map (fun rows => rows.map (fun r => ⟨r, q.2⟩))) := by
  induction rs with
  | nil => rfl
  | cons q rest ih =>
    rcases q with ⟨⟨chain, err⟩, expiry⟩
    by_cases ht : truthyStr err = true
    · simp [processResults, ht, List.filterMap_cons, ih]
    · rcases chain with _ | rows <;> simp [processResults, ht, List.filterMap_cons, ih]

/-- The warnings of the processing loop, as a `filterMap`. -/
lemma processResults_snd (rs : List ((Option (List OptionRow) × Option String) × String)) :
    (processResults rs).2 = rs.filterMap (fun q =>
      if truthyStr q.1.2 then
        some ("Error fetching options for expiry " ++ q.2 ++ ": " ++ q.1.2.getD "")
      else none) := by
  induction rs with
  | nil => rfl
  | cons q rest ih =>
    rcases q with ⟨⟨chain, err⟩, expiry⟩
    by_cases ht : truthyStr err = true
    · simp [processResults, ht, List.filterMap_cons, ih]
    · rcases chain with _ | rows <;> simp [processResults, ht, List.filterMap_cons, ih]

/-- Membership in the `executor.map`-with-`zip` pairing, forward direction. -/
lemma zip_map_self_mem {α β : Type} (f : α → β) (l : List α) (x : α) (hx : x ∈ l) :
    (f x, x) ∈ (l.map f).zip l := by
  induction l with
  | nil => simp at hx
  | cons a rest ih =>
    simp only [List.map_cons, List.zip_cons_cons, List.mem_cons]
    rcases List.mem_cons.mp hx with rfl | hx
    · exact Or.inl rfl
    · exact Or.inr (ih hx)

/-- Membership in the `executor.map`-with-`zip` pairing, backward direction:
every collected pair is a fetch result next to its own originating expiry. -/
lemma mem_zip_map_self {α β : Type} (f : α → β) (l : List α) (q : β × α)
    (hq : q ∈ (l.map f).zip l) : q.2 ∈ l ∧ q.1 = f q.2 := by
  induction l with
  | nil => simp at hq
  | cons a rest ih =>
    simp only [List.map_cons, List.zip_cons_cons, List.mem_cons] at hq
    rcases hq with rfl | hq
    · simp
    · obtain ⟨h1, h2⟩ := ih hq
      exact ⟨by simp [h1], h2⟩

/-- `filterMap` over the zip of a list with its own map. -/
lemma filterMap_zip_map_self {α β γ : Type} (f : α → β) (g : β × α → Option γ)
    (l : List α) :
    ((l.map f).zip l).filterMap g = l.filterMap (fun x => g (f x, x)) := by
  induction l with
  | nil => rfl
  | cons a rest ih =>
    simp only [List.map_cons, List.zip_cons_cons, List.filterMap_cons, ih]

/-- The expiry list surviving Step 3: the provider's expiries inside the
supplied bounds, in original order. -/
def keptExpirations (p : Provider) (sd ed : Option String) : List String :=
  p.expirations.filter (expInRange (boundObj sd) (boundObj ed))

/-- The zipped `(per-expiry fetch result, expiry)` list of Step 4:
`executor.map` preserves the order of `valid_expirations`, so the zip pairs
every result with its own originating expiry. -/
def fetchResults (p : Provider) (ticker : String) (sd ed : Option String)
    (ot : Option OptType) :
    List ((Option (List OptionRow) × Option String) × String) :=
  ((keptExpirations p sd ed).map
      (fun exp => get_options_chain ticker p (some exp) ot)).zip
    (keptExpirations p sd ed)

/-- The surviving tagged per-expiry chains after the warn-and-skip loop. -/
def survivingChains (p : Provider) (ticker : String) (sd ed : Option String)
    (ot : Option OptType) : List (List TaggedRow) :=
  (processResults (fetchResults p ticker sd ed ot)).1

/-- The warnings logged by the warn-and-skip loop. -/
def survivingWarnings (p : Provider) (ticker : String) (sd ed : Option String)
    (ot : Option OptType) : List String :=
  (processResults (fetchResults p ticker sd ed ot)).2

/-- The run of `get_filtered_options` on the fetching path: valid (or absent)
bounds, parseable expiries, and a nonempty filtered expiry list reduce the
function to the fetch-process-filter-sort tail. -/
lemma run_reduces (p : Provider) (ticker : String) (sd ed : Option String)
    (sl su : Option Rat) (ot : Option OptType)
    (hs : boundOK sd = true) (he : boundOK ed = true)
    (hp : ∀ x ∈ p.expirations, (parseDate x).isSome = true)
    (hk : keptExpirations p sd ed ≠ []) :
    get_filtered_options p ticker sd ed sl su ot =
      if (survivingChains p ticker sd ed ot).isEmpty then
        ⟨none, some ("No options found for " ++ ticker ++ " matching criteria"),
          survivingWarnings p ticker sd ed ot, true, keptExpirations p sd ed⟩
      else
        ⟨some (sortRows (strikeFilter sl su (survivingChains p ticker sd ed ot).flatten)),
          none, survivingWarnings p ticker sd ed ot, true, keptExpirations p sd ed⟩ := by
  unfold keptExpirations at hk
  have hempty : p.expirations.isEmpty = false := by
    rcases hx : p.expirations with _ | ⟨a, rest⟩
    · rw [hx] at hk
      simp at hk
    · rfl
  have hkept : (p.expirations.filter (expInRange (boundObj sd) (boundObj ed))).isEmpty
      = false := by
    rcases hx : p.expirations.filter (expInRange (boundObj sd) (boundObj ed)) with _ | _
    · exact absurd hx hk
    · rfl
  have hfe := filterExpirations_ok p.expirations (boundObj sd) (boundObj ed) hp
  simp only [get_filtered_options, boundOK_validation sd hs, boundOK_validation ed he,
    hempty, hfe, hkept, Bool.false_eq_true, if_false]
  rfl

/-- `if s:` on an optional string is true exactly for a present non-empty
string. -/
lemma truthyStr_some_iff {s : String} : truthyStr (some s) = true ↔ s ≠ "" := by
  simp [truthyStr, String.isEmpty_iff, Bool.eq_false_iff]

/-- Any successful result of `get_filtered_options` is the sort of the
strike-filtered merge of some chain list. -/
lemma result_some_shape (p : Provider) (ticker : String) (sd ed : Option String)
    (sl su : Option Rat) (ot : Option OptType) (rows : List TaggedRow)
    (h : (get_filtered_options p ticker sd ed sl su ot).result = some rows) :
    ∃ l, rows = sortRows (strikeFilter sl su l) := by
  unfold get_filtered_options at h
  dsimp only at h
  split at h
  · simp at h
  split at h
  · simp at h
  split at h
  · simp at h
  split at h
  · simp at h
  · split at h
    · simp at h
    · split at h
      · simp at h
      · exact ⟨_, by simpa using h.symm⟩

/-- Demonstration provider: two expiries, both chains fetch successfully. -/
def demoProvider : Provider :=
  ⟨["2025-06-20", "2025-07-18"], fun e =>
    if e = "2025-06-20" then .ok ⟨[⟨100, 10, 5⟩, ⟨110, 10, 7⟩], [⟨90, 3, 1⟩]⟩
    else .ok ⟨[⟨105, 2, 9⟩], []⟩⟩

/-! ### Claims -/

/-- C7: for every call to `get_options_chain` and to `get_filtered_options`,
the returned pair (records, error message) has exactly one side absent: on
success the records side is present and the error side is absent, and on every
failure path the records side is absent and the error message is present. -/
theorem claim_C7_outcome_exclusive (ticker : String) (p : Provider)
    (expiry : Option String) (ot : Option OptType) (p2 : Provider) (ticker2 : String)
    (sd ed : Option String) (sl su : Option Rat) (ot2 : Option OptType) :
    (((get_options_chain ticker p expiry ot).1.isSome = true ∧
        (get_options_chain ticker p expiry ot).2 = none) ∨
      ((get_options_chain ticker p expiry ot).1 = none ∧
        (get_options_chain ticker p expiry ot).2.isSome = true)) ∧
    (((get_filtered_options p2 ticker2 sd ed sl su ot2).result.isSome = true ∧
        (get_filtered_options p2 ticker2 sd ed sl su ot2).error = none) ∨
      ((get_filtered_options p2 ticker2 sd ed sl su ot2).result = none ∧
        (get_filtered_options p2 ticker2 sd ed sl su ot2).error.isSome = true)) := by
  constructor
  · by_cases ht : (!truthyStr expiry) = true
    · right
      simp [get_options_chain, ht]
    · rcases hc : p.chainOf (expiry.getD "") with e | chain
      · right
        simp [get_options_chain, ht, hc]
      · left
        rcases ot with _ | t
        · simp [get_options_chain, ht, hc]
        · cases t <;> simp [get_options_chain, ht, hc]
  · unfold get_filtered_options
    dsimp only
    split
    · right
      simp
    split
    · right
      simp
    split
    · right
      simp
    split
    · right
      simp
    · split
      · right
        simp
      · split
        · right
          simp
        · left
          simp

/-- C1, counterexample: `start_date = ""` is supplied and is not parseable as
`YYYY-MM-DD`, yet `get_filtered_options` does not return the validation error:
`if start_date:` is Python truthiness, the empty string skips validation, the
expiry list is fetched and a populated result is returned. -/
theorem claim_C1_counterexample :
    parseDate "" = none ∧
    (get_filtered_options demoProvider "AAPL" (some "") none none none none).result.isSome
      = true ∧
    (get_filtered_options demoProvider "AAPL" (some "") none none none none).error
      = none ∧
    (get_filtered_options demoProvider "AAPL" (some "") none none none
        none).expiryListFetched = true := by
  decide

/-- C1 (amended): for every call where `start_date` or `end_date` is supplied
as a non-empty string that is not parseable as `YYYY-MM-DD`, the function
returns an absent result with the error naming the malformed bound
(`start_date` taking precedence when both are malformed), without fetching the
expiry list or any option chain; a supplied empty string is treated as an
absent bound. -/
theorem claim_C1_invalid_date_no_fetch (p : Provider) (ticker : String)
    (sd ed : Option String) (sl su : Option Rat) (ot : Option OptType)
    (h : (∃ s, sd = some s ∧ s ≠ "" ∧ parseDate s = none) ∨
         (∃ s, ed = some s ∧ s ≠ "" ∧ parseDate s = none)) :
    (get_filtered_options p ticker sd ed sl su ot).result = none ∧
    (get_filtered_options p ticker sd ed sl su ot).expiryListFetched = false ∧
    (get_filtered_options p ticker sd ed sl su ot).chainsFetched = [] ∧
    (get_filtered_options p ticker sd ed sl su ot).error =
      some (if truthyStr sd && (parseDate (sd.getD "")).isNone then
        "Invalid start_date format. Use YYYY-MM-DD"
      else "Invalid end_date format. Use YYYY-MM-DD") := by
  rcases h with ⟨s, rfl, hne, hbad⟩ | ⟨s, hed, hne, hbad⟩
  · have hc : (truthyStr (some s) &&
        (parseDate (((some s) : Option String).getD "")).isNone) = true := by
      simp [truthyStr_some_iff.mpr hne, hbad]
    unfold get_filtered_options
    simp only [if_pos hc]
    simp
  · by_cases hc1 : (truthyStr sd && (parseDate (sd.getD "")).isNone) = true
    · unfold get_filtered_options
      simp only [if_pos hc1]
      simp
    · have hc2 : (truthyStr ed && (parseDate (ed.getD "")).isNone) = true := by
        rw [hed]
        simp [truthyStr_some_iff.mpr hne, hbad]
      unfold get_filtered_options
      simp only [if_neg hc1, if_pos hc2]
      simp

/-- C1 witness: a malformed (slash-separated, non-empty) start date at concrete
inputs. -/
theorem claim_C1_witness :
    (get_filtered_options demoProvider "AAPL" (some "2025/01/01") none none none
        none).result = none ∧
    (get_filtered_options demoProvider "AAPL" (some "2025/01/01") none none none
        none).expiryListFetched = false ∧
    (get_filtered_options demoProvider "AAPL" (some "2025/01/01") none none none
        none).chainsFetched = [] ∧
    (get_filtered_options demoProvider "AAPL" (some "2025/01/01") none none none
        none).error = some "Invalid start_date format. Use YYYY-MM-DD" := by
  have H := claim_C1_invalid_date_no_fetch demoProvider "AAPL" (some "2025/01/01")
    none none none none (Or.inl ⟨"2025/01/01", rfl, by decide, by decide⟩)
  simpa using H

/-- C2: every successful result of `get_filtered_options` containing at least 2
records is sorted non-increasing by open interest, with ties broken by
non-increasing volume. -/
theorem claim_C2_sorted (p : Provider) (ticker : String) (sd ed : Option String)
    (sl su : Option Rat) (ot : Option OptType) (rows : List TaggedRow)
    (h : (get_filtered_options p ticker sd ed sl su ot).result = some rows)
    (hlen : 2 ≤ rows.length) :
    rows.Pairwise (fun a b =>
      b.row.openInterest < a.row.openInterest ∨
        (a.row.openInterest = b.row.openInterest ∧ b.row.volume ≤ a.row.volume)) := by
  obtain ⟨l, rfl⟩ := result_some_shape p ticker sd ed sl su ot rows h
  have hs := List.sorted_insertionSort rowOrder (strikeFilter sl su l)
  refine List.Pairwise.imp ?_ hs
  intro a b hab
  unfold rowOrder rowLe at hab
  simp only [Bool.or_eq_true, Bool.and_eq_true, decide_eq_true_eq, beq_iff_eq] at hab
  tauto

/-- C2 witness: the sorted four-row result of the demonstration provider. -/
theorem claim_C2_witness :
    ([⟨⟨110, 10, 7⟩, "2025-06-20"⟩, ⟨⟨100, 10, 5⟩, "2025-06-20"⟩,
      ⟨⟨90, 3, 1⟩, "2025-06-20"⟩, ⟨⟨105, 2, 9⟩, "2025-07-18"⟩] :
      List TaggedRow).Pairwise (fun a b =>
        b.row.openInterest < a.row.openInterest ∨
          (a.row.openInterest = b.row.openInterest ∧ b.row.volume ≤ a.row.volume)) :=
  claim_C2_sorted demoProvider "AAPL" none none none none none
    [⟨⟨110, 10, 7⟩, "2025-06-20"⟩, ⟨⟨100, 10, 5⟩, "2025-06-20"⟩,
      ⟨⟨90, 3, 1⟩, "2025-06-20"⟩, ⟨⟨105, 2, 9⟩, "2025-07-18"⟩]
    (by decide) (by decide)

/-- C6: every row of a successful `get_filtered_options` result respects the
supplied strike bounds, each applied only when supplied and both inclusive. -/
theorem claim_C6_strike_bounds (p : Provider) (ticker : String) (sd ed : Option String)
    (sl su : Option Rat) (ot : Option OptType) (rows : List TaggedRow)
    (h : (get_filtered_options p ticker sd ed sl su ot).result = some rows) :
    ∀ r ∈ rows, (∀ lo, sl = some lo → lo ≤ r.row.strike) ∧
      (∀ hi, su = some hi → r.row.strike ≤ hi) := by
  obtain ⟨l, rfl⟩ := result_some_shape p ticker sd ed sl su ot rows h
  intro r hr
  have hr' : r ∈ strikeFilter sl su l := by
    have hperm := List.perm_insertionSort rowOrder (strikeFilter sl su l)
    exact hperm.mem_iff.mp hr
  unfold strikeFilter at hr'
  split at hr'
  · rename_i hni
    simp only [Bool.and_eq_true, Option.isNone_iff_eq_none] at hni
    constructor
    · intro lo hlo
      rw [hlo] at hni
      simp at hni
    · intro hi hhi
      rw [hhi] at hni
      simp at hni
  · have hpass := (List.mem_filter.mp hr').2
    unfold strikePass at hpass
    simp only [Bool.and_eq_true] at hpass
    constructor
    · intro lo hlo
      rw [hlo] at hpass
      simpa using hpass.1
    · intro hi hhi
      rw [hhi] at hpass
      simpa using hpass.2

/-- C6 witness: with `strike_lower = 100`, the top row of the demonstration
result has strike at least 100. -/
theorem claim_C6_witness :
    (100 : Rat) ≤ (⟨⟨110, 10, 7⟩, "2025-06-20"⟩ : TaggedRow).row.strike :=
  (claim_C6_strike_bounds demoProvider "AAPL" none none (some 100) none none
    [⟨⟨110, 10, 7⟩, "2025-06-20"⟩, ⟨⟨100, 10, 5⟩, "2025-06-20"⟩,
      ⟨⟨105, 2, 9⟩, "2025-07-18"⟩]
    (by decide) ⟨⟨110, 10, 7⟩, "2025-06-20"⟩ (by decide)).1 100 rfl

/-- C3: with validation passing and a parseable provider expiry list, an empty
expiry list fails with the "no options available" message; otherwise exactly
the expiries inside the supplied bounds (absent bound unbounded, comparisons
inclusive) are retained in their original order as the fetched expiry list,
and if none survive the call fails with the "within specified date range"
message. -/
theorem claim_C3_expiry_filtering (p : Provider) (ticker : String)
    (sd ed : Option String) (sl su : Option Rat) (ot : Option OptType)
    (hs : boundOK sd = true) (he : boundOK ed = true)
    (hp : ∀ x ∈ p.expirations, (parseDate x).isSome = true) :
    (p.expirations = [] →
      (get_filtered_options p ticker sd ed sl su ot).result = none ∧
      (get_filtered_options p ticker sd ed sl su ot).error =
        some ("No options available for " ++ ticker)) ∧
    (p.expirations ≠ [] →
      keptExpirations p sd ed = [] →
      (get_filtered_options p ticker sd ed sl su ot).result = none ∧
      (get_filtered_options p ticker sd ed sl su ot).error =
        some ("No options found for " ++ ticker ++ " within specified date range")) ∧
    (keptExpirations p sd ed ≠ [] →
      (get_filtered_options p ticker sd ed sl su ot).chainsFetched =
        keptExpirations p sd ed) := by
  have h1 : ¬((truthyStr sd && (parseDate (sd.getD "")).isNone) = true) := by
    simp [boundOK_validation sd hs]
  have h2 : ¬((truthyStr ed && (parseDate (ed.getD "")).isNone) = true) := by
    simp [boundOK_validation ed he]
  refine ⟨?_, ?_, ?_⟩
  · intro hnil
    unfold get_filtered_options
    simp only [if_neg h1, if_neg h2, hnil]
    simp
  · intro hnotnil hfil
    unfold keptExpirations at hfil
    have hempty : p.expirations.isEmpty = false := by
      rcases hx : p.expirations with _ | _
      · exact absurd hx hnotnil
      · rfl
    have hfe := filterExpirations_ok p.expirations (boundObj sd) (boundObj ed) hp
    unfold get_filtered_options
    simp only [if_neg h1, if_neg h2, hempty, hfe, hfil]
    simp
  · intro hfil
    rw [run_reduces p ticker sd ed sl su ot hs he hp hfil]
    split <;> rfl

/-- C3 witness: a start bound that keeps exactly the later demonstration
expiry. -/
theorem claim_C3_witness :
    (get_filtered_options demoProvider "AAPL" (some "2025-07-01") none none none
        none).chainsFetched = ["2025-07-18"] := by
  have H := claim_C3_expiry_filtering demoProvider "AAPL" (some "2025-07-01") none
    none none none (by decide) (by decide) (by decide)
  rw [H.2.2 (by decide)]
  decide

/-- Provider whose only expiry's fetch raises an exception whose `str` is the
empty string. -/
def emptyErrProvider : Provider := ⟨["2025-06-20"], fun _ => .error ""⟩

/-- Provider with one failing and one succeeding expiry. -/
def mixedProvider : Provider :=
  ⟨["2025-06-20", "2025-07-18"], fun e =>
    if e = "2025-06-20" then .error "boom"
    else .ok ⟨[⟨105, 2, 9⟩], [⟨95, 1, 0⟩]⟩⟩

/-- C4, counterexample: an expiry whose fetch errors with an empty message is
excluded, but no warning naming it is logged — `if error:` is Python
truthiness, and `str(e)` can be empty.  The claim's "each errored expiry is
logged as a warning" fails here. -/
theorem claim_C4_counterexample :
    (get_options_chain "AAPL" emptyErrProvider (some "2025-06-20") none).2 = some "" ∧
    (get_filtered_options emptyErrProvider "AAPL" none none none none none).warnings
      = [] ∧
    (get_filtered_options emptyErrProvider "AAPL" none none none none none).result
      = none ∧
    (get_filtered_options emptyErrProvider "AAPL" none none none none none).error
      = some "No options found for AAPL matching criteria" := by
  decide

/-- C4 (amended): on the fetching path, every errored expiry is excluded from
the merged result and, when its error message is non-empty, a warning naming
the expiry and the error is logged; rows from every non-errored expiry are
kept; the operation fails — with the "matching criteria" message — exactly
when zero per-expiry chains survive. -/
theorem claim_C4_partial_failure (p : Provider) (ticker : String)
    (sd ed : Option String) (sl su : Option Rat) (ot : Option OptType)
    (hs : boundOK sd = true) (he : boundOK ed = true)
    (hp : ∀ x ∈ p.expirations, (parseDate x).isSome = true)
    (hk : keptExpirations p sd ed ≠ []) :
    (∀ exp ∈ keptExpirations p sd ed, ∀ e,
        (get_options_chain ticker p (some exp) ot).2 = some e → e ≠ "" →
        ("Error fetching options for expiry " ++ exp ++ ": " ++ e) ∈
          (get_filtered_options p ticker sd ed sl su ot).warnings) ∧
    (∀ exp ∈ keptExpirations p sd ed, ∀ rows,
        get_options_chain ticker p (some exp) ot = (some rows, none) →
        (rows.map (fun r => (⟨r, exp⟩ : TaggedRow))) ∈
          survivingChains p ticker sd ed ot) ∧
    (∀ c ∈ survivingChains p ticker sd ed ot,
      ∃ exp rows, exp ∈ keptExpirations p sd ed ∧
        get_options_chain ticker p (some exp) ot = (some rows, none) ∧
        c = rows.map (fun r => (⟨r, exp⟩ : TaggedRow))) ∧
    (survivingChains p ticker sd ed ot = [] ↔
      (get_filtered_options p ticker sd ed sl su ot).result = none) ∧
    (survivingChains p ticker sd ed ot = [] →
      (get_filtered_options p ticker sd ed sl su ot).error =
        some ("No options found for " ++ ticker ++ " matching criteria")) := by
  have hrun := run_reduces p ticker sd ed sl su ot hs he hp hk
  have hw : (get_filtered_options p ticker sd ed sl su ot).warnings =
      survivingWarnings p ticker sd ed ot := by
    rw [hrun]
    split <;> rfl
  refine ⟨?_, ?_, ?_, ?_, ?_⟩
  · intro exp hexp e he' hne
    rw [hw]
    unfold survivingWarnings
    rw [processResults_snd]
    refine List.mem_filterMap.mpr
      ⟨(get_options_chain ticker p (some exp) ot, exp), ?_, ?_⟩
    · unfold fetchResults
      exact zip_map_self_mem _ _ exp hexp
    · simp [he', truthyStr_some_iff.mpr hne]
  · intro exp hexp rows hfr
    unfold survivingChains
    rw [processResults_fst]
    refine List.mem_filterMap.mpr
      ⟨(get_options_chain ticker p (some exp) ot, exp), ?_, ?_⟩
    · unfold fetchResults
      exact zip_map_self_mem _ _ exp hexp
    · simp [hfr, truthyStr]
  · intro c hc
    unfold survivingChains at hc
    rw [processResults_fst] at hc
    obtain ⟨q, hqmem, hqeq⟩ := List.mem_filterMap.mp hc
    unfold fetchResults at hqmem
    obtain ⟨hq2, hq1⟩ := mem_zip_map_self _ _ q hqmem
    by_cases ht : truthyStr q.1.2 = true
    · rw [if_pos ht] at hqeq
      simp at hqeq
    · rw [if_neg ht] at hqeq
      rcases hq11 : q.1.1 with _ | rows
      · rw [hq11] at hqeq
        simp at hqeq
      · rw [hq11] at hqeq
        have hsome : (get_options_chain ticker p (some q.2) ot).1 = some rows := by
          rw [← hq1, hq11]
        have herr : (get_options_chain ticker p (some q.2) ot).2 = none :=
          get_options_chain_isSome_error_none _ _ _ _ (by rw [hsome]; rfl)
        refine ⟨q.2, rows, hq2, Prod.ext_iff.mpr ⟨hsome, herr⟩, ?_⟩
        simpa using hqeq.symm
  · constructor
    · intro hnil
      rw [hrun, if_pos (by rw [hnil]; rfl)]
    · intro hres
      rcases hx : survivingChains p ticker sd ed ot with _ | _
      · rfl
      · rw [hrun, if_neg (by rw [hx]; simp)] at hres
        simp at hres
  · intro hnil
    rw [hrun, if_pos (by rw [hnil]; rfl)]

/-- C4 witness: one failing and one succeeding expiry — the failure is warned
about, the other expiry's tagged rows survive. -/
theorem claim_C4_witness :
    ("Error fetching options for expiry " ++ "2025-06-20" ++ ": " ++ "boom") ∈
      (get_filtered_options mixedProvider "AAPL" none none none none none).warnings ∧
    (([⟨105, 2, 9⟩, ⟨95, 1, 0⟩] : List OptionRow).map
        (fun r => (⟨r, "2025-07-18"⟩ : TaggedRow))) ∈
      survivingChains mixedProvider "AAPL" none none none := by
  have H := claim_C4_partial_failure mixedProvider "AAPL" none none none none none
    (by decide) (by decide) (by decide) (by decide)
  exact ⟨H.1 "2025-06-20" (by decide) "boom" (by decide) (by decide),
    H.2.1 "2025-07-18" (by decide) [⟨105, 2, 9⟩, ⟨95, 1, 0⟩] (by decide)⟩

/-- A kept expiry parses, hence is non-empty and truthy. -/
lemma kept_truthy (p : Provider) (sd ed : Option String) (exp : String)
    (hexp : exp ∈ keptExpirations p sd ed) : truthyStr (some exp) = true := by
  unfold keptExpirations at hexp
  have hin := (List.mem_filter.mp hexp).2
  unfold expInRange at hin
  rcases hd : parseDate exp with _ | d
  · rw [hd] at hin
    simp at hin
  · refine truthyStr_some_iff.mpr ?_
    intro hemp
    rw [hemp] at hd
    exact Option.noConfusion ((rfl : parseDate "" = none) ▸ hd)

/-- C5: the merged pre-sort sequence is exactly the per-expiry groups in the
order their expiry appears in the filtered expiry list, each group being its
own fetch's rows tagged with that expiry (so result-to-expiry association
never depends on completion order), with calls preceding puts inside a group
when both sides are requested. -/
theorem claim_C5_merge_order_and_tagging (p : Provider) (ticker : String)
    (sd ed : Option String) (sl su : Option Rat) (ot : Option OptType)
    (hs : boundOK sd = true) (he : boundOK ed = true)
    (hp : ∀ x ∈ p.expirations, (parseDate x).isSome = true)
    (hk : keptExpirations p sd ed ≠ []) :
    (survivingChains p ticker sd ed ot =
      (keptExpirations p sd ed).filterMap (fun exp =>
        ((get_options_chain ticker p (some exp) ot).1).map
          (fun rows => rows.map (fun r => (⟨r, exp⟩ : TaggedRow))))) ∧
    (ot = none → ∀ exp ∈ keptExpirations p sd ed, ∀ ch,
      p.chainOf exp = .ok ch →
      (get_options_chain ticker p (some exp) ot).1 = some (ch.calls ++ ch.puts)) ∧
    (∀ g ∈ survivingChains p ticker sd ed ot, ∃ exp rows,
      exp ∈ keptExpirations p sd ed ∧
      (get_options_chain ticker p (some exp) ot).1 = some rows ∧
      g = rows.map (fun r => (⟨r, exp⟩ : TaggedRow)) ∧
      ∀ t ∈ g, t.expiryDate = exp) ∧
    (survivingChains p ticker sd ed ot ≠ [] →
      (get_filtered_options p ticker sd ed sl su ot).result =
        some (sortRows (strikeFilter sl su
          (survivingChains p ticker sd ed ot).flatten))) := by
  have hchains : survivingChains p ticker sd ed ot =
      (keptExpirations p sd ed).filterMap (fun exp =>
        ((get_options_chain ticker p (some exp) ot).1).map
          (fun rows => rows.map (fun r => (⟨r, exp⟩ : TaggedRow)))) := by
    unfold survivingChains fetchResults
    rw [processResults_fst, filterMap_zip_map_self]
    refine List.filterMap_congr ?_
    intro exp _
    by_cases ht : truthyStr (get_options_chain ticker p (some exp) ot).2 = true
    · rw [if_pos ht, get_options_chain_truthy_error_none ticker p (some exp) ot ht]
      rfl
    · rw [if_neg ht]
  refine ⟨hchains, ?_, ?_, ?_⟩
  · intro hot exp hexp ch hch
    subst hot
    have ht := kept_truthy p sd ed exp hexp
    unfold get_options_chain
    rw [if_neg (by simp [ht])]
    simp [hch]
  · intro g hg
    rw [hchains] at hg
    obtain ⟨exp, hexp, heq⟩ := List.mem_filterMap.mp hg
    rcases hf : (get_options_chain ticker p (some exp) ot).1 with _ | rows
    · rw [hf] at heq
      simp at heq
    · rw [hf] at heq
      refine ⟨exp, rows, hexp, hf, by simpa using heq.symm, ?_⟩
      intro t ht
      have hg' : g = rows.map (fun r => (⟨r, exp⟩ : TaggedRow)) := by
        simpa using heq.symm
      rw [hg'] at ht
      obtain ⟨r, _, rfl⟩ := List.mem_map.mp ht
      rfl
  · intro hne
    rw [run_reduces p ticker sd ed sl su ot hs he hp hk,
      if_neg (by
        rcases hx : survivingChains p ticker sd ed ot with _ | _
        · exact absurd hx hne
        · simp)]

/-- C5 witness: the surviving chains of the mixed provider are exactly the one
tagged group of the succeeding expiry, in filtered-list order. -/
theorem claim_C5_witness :
    survivingChains mixedProvider "AAPL" none none none =
      [[⟨⟨105, 2, 9⟩, "2025-07-18"⟩, ⟨⟨95, 1, 0⟩, "2025-07-18"⟩]] := by
  have H := claim_C5_merge_order_and_tagging mixedProvider "AAPL" none none none
    none none (by decide) (by decide) (by decide) (by decide)
  rw [H.1]
  decide

/-- C10: the "matching criteria" emptiness check precedes strike filtering, so
when at least one per-expiry chain survives but the strike bounds exclude every
row, the call succeeds with an empty record set and no error message. -/
theorem claim_C10_empty_success (p : Provider) (ticker : String)
    (sd ed : Option String) (sl su : Option Rat) (ot : Option OptType)
    (hs : boundOK sd = true) (he : boundOK ed = true)
    (hp : ∀ x ∈ p.expirations, (parseDate x).isSome = true)
    (hk : keptExpirations p sd ed ≠ [])
    (hsurv : survivingChains p ticker sd ed ot ≠ [])
    (hexcl : strikeFilter sl su (survivingChains p ticker sd ed ot).flatten = []) :
    (get_filtered_options p ticker sd ed sl su ot).result = some [] ∧
    (get_filtered_options p ticker sd ed sl su ot).error = none := by
  have hneg : ¬((survivingChains p ticker sd ed ot).isEmpty = true) := by
    rcases hx : survivingChains p ticker sd ed ot with _ | _
    · exact absurd hx hsurv
    · simp
  rw [run_reduces p ticker sd ed sl su ot hs he hp hk, if_neg hneg]
  refine ⟨?_, rfl⟩
  dsimp only
  rw [hexcl]
  rfl

/-- C10 witness: a lower strike bound above every demonstration strike yields a
successful empty result. -/
theorem claim_C10_witness :
    (get_filtered_options demoProvider "AAPL" none none (some 1000) none none).result
      = some [] ∧
    (get_filtered_options demoProvider "AAPL" none none (some 1000) none none).error
      = none :=
  claim_C10_empty_success demoProvider "AAPL" none none (some 1000) none none
    (by decide) (by decide) (by decide) (by decide) (by decide) (by decide)

/-- Holder fetches where the institutional call succeeds with data and the
fund call raises. -/
def holderSuppression : HoldersFetch Nat := ⟨.ok (some [1, 2, 3]), .error "boom"⟩

/-- C8, counterexample: both upstream calls share one `try`; when the fund
fetch raises after the institutional fetch succeeded, `(None, None)` is
returned — the institutional half's successful result is suppressed. -/
theorem claim_C8_counterexample :
    holderSuppression.inst = .ok (some [1, 2, 3]) ∧
    (get_institutional_holders holderSuppression "AAPL" 20).1 = (none, none) :=
  ⟨rfl, rfl⟩

/-- C8 (amended): the two halves are independent only when neither upstream
call raises: then each half is its own fetch's data truncated to `top_n`,
absent exactly when its own fetch returned no data.  An exception in either
call makes both halves absent. -/
theorem claim_C8_holders_independent_when_no_raise {α : Type} (f : HoldersFetch α)
    (ticker : String) (top_n : Nat) (i fd : Option (List α))
    (hi : f.inst = .ok i) (hf : f.fund = .ok fd) :
    (get_institutional_holders f ticker top_n).1 =
      (i.map (fun l => l.take top_n), fd.map (fun l => l.take top_n)) := by
  unfold get_institutional_holders
  rw [hi, hf]

/-- Holder fetches where the institutional call returns no data (without
raising) and the fund call returns data. -/
def halfEmptyFetch : HoldersFetch Nat := ⟨.ok none, .ok (some [7, 8, 9])⟩

/-- C8 witness: the institutional half returning no data does not suppress the
fund half's data. -/
theorem claim_C8_witness :
    (get_institutional_holders halfEmptyFetch "AAPL" 2).1 = (none, some [7, 8]) := by
  have H := claim_C8_holders_independent_when_no_raise halfEmptyFetch "AAPL" 2 none
    (some [7, 8, 9]) rfl rfl
  simpa using H

/-- C9, counterexample: when the upstream call returns nothing meaningful
(`None`) without raising, `get_recommendations` returns the sentinel but logs
nothing — contradicting "logs an error naming the ticker and the attempted
operation" for that failure class. -/
theorem claim_C9_counterexample :
    get_recommendations (Except.ok none : Except String (Option (List Nat))) "AAPL" 5
      = (none, []) :=
  rfl

/-- C9 (amended): each accessor catches a raised upstream failure at its
boundary, logs one error naming the ticker and the attempted operation, and
returns the absent sentinel; when upstream returns nothing meaningful without
raising, the sentinel is returned without a log; no exception propagates (each
accessor is a total function of the upstream outcome). -/
theorem claim_C9_catch_log_sentinel (α : Type) (ticker e : String) (limit : Nat)
    (v : α) (df : List α) :
    (get_ticker_info (Except.error e : Except String (Option α)) ticker =
      (none, ["Error retrieving ticker info for " ++ ticker ++ ": " ++ e])) ∧
    (get_recommendations (Except.error e : Except String (Option (List α))) ticker
        limit =
      (none, ["Error retrieving recommendations for " ++ ticker ++ ": " ++ e])) ∧
    (get_price_history (Except.error e : Except String α) ticker =
      (none, ["Error retrieving price history for " ++ ticker ++ ": " ++ e])) ∧
    (get_ticker_info (Except.ok (none : Option α)) ticker = (none, [])) ∧
    (get_recommendations (Except.ok (none : Option (List α))) ticker limit
      = (none, [])) ∧
    (get_recommendations (Except.ok (some df)) ticker limit
      = (some (df.take limit), [])) ∧
    (get_price_history (Except.ok v) ticker = (some v, [])) :=
  ⟨rfl, rfl, rfl, rfl, rfl, rfl, rfl⟩

end VnStock
